import Mathlib

/-!
# Verification of the seabird-rs client SDK core

A shallow embedding of the seabird-rs repository's core: the content block
builder and its normalization/denormalization conversions (`src/block.rs`),
the message-content conversion and request construction of the RPC client
(`src/client.rs`), the authentication interceptor, and a step-level model of
client construction.  Theorems settle the specification's claims about these
definitions.
-/

namespace Seabird

/-- The generated `prost_types::Timestamp`: whole seconds and sub-second nanoseconds.
The Rust fields are `seconds : i64` and `nanos : i32`, modelled as `Int`. -/
structure Timestamp where
  seconds : Int
  nanos : Int
  deriving Repr, DecidableEq

mutual

/-- The generated wire node `proto::Block`: a plain-text fallback string and
an optional one-of payload.  Generated from the repository's proto schema;
fields and variants as constructed throughout `src/block.rs` and described in
spec §3. -/
inductive ProtoBlock : Type where
  | mk (plain : String) (inner : Option ProtoInner)

/-- The one-of payload `proto::block::Inner` with its fourteen variants, each
carrying the fields of the corresponding generated message type. -/
inductive ProtoInner : Type where
  | text (text : String)
  | bold (inner : Option ProtoBlock)
  | italics (inner : Option ProtoBlock)
  | underline (inner : Option ProtoBlock)
  | strikethrough (inner : Option ProtoBlock)
  | spoiler (inner : Option ProtoBlock)
  | blockquote (inner : Option ProtoBlock)
  | inlineCode (text : String)
  | fencedCode (info : String) (text : String)
  | link (url : String) (inner : Option ProtoBlock)
  | heading (level : Int) (inner : Option ProtoBlock)
  | list (inner : List ProtoBlock)
  | timestamp (inner : Option Timestamp)
  | container (inner : List ProtoBlock)

end

/-- The fallback string of a wire node. -/
def ProtoBlock.plain : ProtoBlock → String
  | .mk p _ => p

/-- The one-of payload of a wire node. -/
def ProtoBlock.inner : ProtoBlock → Option ProtoInner
  | .mk _ i => i

/-- The builder `Block` of `src/block.rs`: an ordered sequence of wire
nodes. -/
structure Block where
  children : List ProtoBlock

/-- Source `Block::new`: the empty builder. -/
def Block.new : Block := ⟨[]⟩

/-- Normalization `impl From<Block> for proto::Block` (`src/block.rs:238`):
a single child is returned directly, otherwise the children are wrapped in a
`Container` node with an empty fallback string. -/
def Block.toProto : Block → ProtoBlock
  | ⟨[b]⟩ => b
  | ⟨children⟩ => ⟨"", some (.container children)⟩

/-- Denormalization `impl From<proto::Block> for Block` (`src/block.rs:255`):
a `Container` node is unwrapped into its inner sequence, any other node
becomes the single child. -/
def Block.ofProto : ProtoBlock → Block
  | ⟨_, some (.container inner)⟩ => ⟨inner⟩
  | b => ⟨[b]⟩

/-- Source `Block::append`: extends this builder's children with the other
builder's children (the Rust argument is `impl Into<Block>`; this models the
call after conversion). -/
def Block.append (b : Block) (other : Block) : Block :=
  ⟨b.children ++ other.children⟩

/-- Source `Block::prepend`: places the other builder's children before this
builder's children. -/
def Block.prepend (b : Block) (other : Block) : Block :=
  ⟨other.children ++ b.children⟩

/-- Source `Block::text`: appends a `Text` leaf. -/
def Block.text (b : Block) (t : String) : Block :=
  ⟨b.children ++ [⟨"", some (.text t)⟩]⟩

/-- Source `Block::container`: appends a `Container` node whose inner sequence is
the normalized form of each given builder, in order. -/
def Block.container (b : Block) (blocks : List Block) : Block :=
  ⟨b.children ++ [⟨"", some (.container (blocks.map Block.toProto))⟩]⟩

/-- Whether a wire node's payload is the `Container` variant. -/
def isContainerNode : ProtoBlock → Bool
  | ⟨_, some (.container _)⟩ => true
  | _ => false

/-- Source `MessageContent` (`src/client.rs:15`): plain text or a structured block. -/
inductive MessageContent : Type where
  | text (s : String)
  | blocks (b : ProtoBlock)

/-- Source `MessageContent::into_inner` (`src/client.rs:25`): text-only content
yields the text with no block; block content yields empty text with the
block. -/
def MessageContent.into_inner : MessageContent → String × Option ProtoBlock
  | .text t => (t, none)
  | .blocks b => ("", some b)

/-- The tag mapping `HashMap<String, String>`, modelled as an association
list; `unwrap_or_default` on the option becomes `Option.getD` with the empty
mapping. -/
abbrev Tags := List (String × String)

/-- The generated `proto::SendMessageRequest` as populated by `SeabirdClient::send_message`
(`src/client.rs:327`). -/
structure SendMessageRequest where
  channel_id : String
  text : String
  root_block : Option ProtoBlock
  tags : Tags

/-- The generated `proto::SendPrivateMessageRequest` as populated by
`SeabirdClient::send_private_message` (`src/client.rs:372`). -/
structure SendPrivateMessageRequest where
  user_id : String
  text : String
  root_block : Option ProtoBlock
  tags : Tags

/-- The generated `proto::PerformActionRequest` as populated by
`SeabirdClient::perform_action` (`src/client.rs:277`). -/
structure PerformActionRequest where
  channel_id : String
  text : String
  root_block : Option ProtoBlock
  tags : Tags

/-- The generated `proto::PerformPrivateActionRequest` as populated by
`SeabirdClient::perform_private_action` (`src/client.rs:230`). -/
structure PerformPrivateActionRequest where
  user_id : String
  text : String
  root_block : Option ProtoBlock
  tags : Tags

/-- The request built by `SeabirdClient::send_message`
(`src/client.rs:318`): destructures `content.into().into_inner()` and fills
the request, with absent tags defaulting to the empty mapping. -/
def sendMessageRequest (channel_id : String) (content : MessageContent)
    (tags : Option Tags) : SendMessageRequest :=
  let p := content.into_inner
  ⟨channel_id, p.1, p.2, tags.getD []⟩

/-- The request built by `SeabirdClient::send_private_message`
(`src/client.rs:363`). -/
def sendPrivateMessageRequest (user_id : String) (content : MessageContent)
    (tags : Option Tags) : SendPrivateMessageRequest :=
  let p := content.into_inner
  ⟨user_id, p.1, p.2, tags.getD []⟩

/-- The request built by `SeabirdClient::perform_action`
(`src/client.rs:268`). -/
def performActionRequest (channel_id : String) (content : MessageContent)
    (tags : Option Tags) : PerformActionRequest :=
  let p := content.into_inner
  ⟨channel_id, p.1, p.2, tags.getD []⟩

/-- The request built by `SeabirdClient::perform_private_action`
(`src/client.rs:221`). -/
def performPrivateActionRequest (user_id : String) (content : MessageContent)
    (tags : Option Tags) : PerformPrivateActionRequest :=
  let p := content.into_inner
  ⟨user_id, p.1, p.2, tags.getD []⟩

/-- Request metadata (`tonic::metadata::MetadataMap`), modelled as a map from
header name to optional value. -/
def Metadata : Type := String → Option String

/-- An outgoing `tonic::Request<()>`, reduced to the metadata the
interceptor observes. -/
structure GrpcRequest where
  metadata : Metadata

/-- The external `tonic::Status`, the interceptor's error type (never produced here). -/
inductive Status : Type where
  | err

/-- Source `AuthHeaderInterceptor` (`src/client.rs:90`): holds the pre-formatted
authorization header value. -/
structure AuthHeaderInterceptor where
  auth_header : String
  deriving Repr, DecidableEq

/-- The interceptor's `call` (`src/client.rs:94`): inserts the stored value
under the `authorization` key — `MetadataMap::insert` replaces any existing
value — and returns the request unconditionally wrapped in `Ok`. -/
def AuthHeaderInterceptor.call (i : AuthHeaderInterceptor) (req : GrpcRequest) :
    Except Status GrpcRequest :=
  .ok ⟨fun k => if k = "authorization" then some i.auth_header else req.metadata k⟩

/-- The bearer value `format!("Bearer {}", config.token)`
(`src/client.rs:183`). -/
def mkAuthHeader (token : String) : String := "Bearer " ++ token

/-- Source `ClientConfig` (`src/client.rs:70`): endpoint URL and auth token. -/
structure ClientConfig where
  url : String
  token : String

/-- A parsed URI, reduced to what client construction consumes: the optional
scheme (`Uri::scheme_str`) and the remainder of the URL. -/
structure Uri where
  scheme : Option String
  rest : String
  deriving Repr, DecidableEq

/-- Whether a character may appear in a URI scheme (letters, digits, `+`,
`-`, `.`). -/
def isSchemeChar (c : Char) : Bool :=
  c.isAlphanum || c = '+' || c = '-' || c = '.'

/-- Splits a character list at the first occurrence of `"://"`, returning
the parts before and after it. -/
def findSchemeSplit : List Char → Option (List Char × List Char)
  | [] => none
  | ':' :: '/' :: '/' :: rest => some ([], rest)
  | c :: rest => (findSchemeSplit rest).map fun p => (c :: p.1, p.2)

/-- Modelled from the spec: URL parsing by the external `http::Uri` parser
consumed at `src/client.rs:168` (spec §6: "`url` must be a valid absolute
URI"; §4.2 step 1 fails on a malformed URL).  Only what construction
observes is modelled: a URL of the form `scheme://rest` with a nonempty
well-formed scheme and nonempty remainder parses with that scheme, a
nonempty URL without `://` parses in authority form with no scheme, and the
empty URL is rejected. -/
def parseUri (s : String) : Option Uri :=
  match findSchemeSplit s.toList with
  | some (schemePart, rest) =>
    if schemePart ≠ [] ∧ schemePart.all isSchemeChar ∧ rest ≠ [] then
      some ⟨some (String.mk schemePart), String.mk rest⟩
    else none
  | none => if s.toList ≠ [] then some ⟨none, s⟩ else none

/-- Modelled from the spec: validity of a header value for the external
`tonic::metadata::MetadataValue<Ascii>` parse at `src/client.rs:183` (spec
§4.2 step 4: the token must be "a legal header value").  A byte is legal if
it is not a control character: printable (codepoint ≥ 32, ≠ 127) or tab. -/
def isValidHeaderValue (s : String) : Bool :=
  s.toList.all fun c => (32 ≤ c.toNat && c.toNat != 127) || c = '\t'

/-- The scheme dispatch of client construction (`src/client.rs:171`): an
absent scheme or `https` applies the TLS configuration, any other scheme
leaves the channel builder's default path. -/
def schemeSelectsTls : Option String → Bool
  | none => true
  | some "https" => true
  | some _ => false

/-- The observable steps of client construction, in the order
`SeabirdClient::new` / `ChatIngestClient::new` perform them. -/
inductive Step : Type where
  | parseUrl
  | tlsConfig
  | connect
  | parseToken
  | wrapInterceptor
  deriving Repr, DecidableEq, BEq

/-- The errors client construction can surface: a malformed URL, a failed
connection, or a token that is not a legal header value. -/
inductive NewError : Type where
  | configUrlError
  | connectionError
  | configTokenError
  deriving Repr, DecidableEq

/-- Source `SeabirdClient` (`src/client.rs:131`), reduced to the authentication
state construction installs: the interceptor bound to its channel. -/
structure SeabirdClient where
  interceptor : AuthHeaderInterceptor
  deriving Repr, DecidableEq

/-- Source `ChatIngestClient` (`src/client.rs:424`), reduced likewise. -/
structure ChatIngestClient where
  interceptor : AuthHeaderInterceptor
  deriving Repr, DecidableEq

/-- Source `SeabirdClient::new` (`src/client.rs:167`) as a step trace plus outcome.
The network connect is abstracted by the oracle `connectOk`.  The code's
order is kept: parse the URL, apply TLS config when the scheme selects it,
connect, then parse `"Bearer <token>"` as a header value and install the
interceptor. -/
def seabirdClientNew (config : ClientConfig) (connectOk : Bool) :
    List Step × Except NewError SeabirdClient :=
  match parseUri config.url with
  | none => ([.parseUrl], .error .configUrlError)
  | some uri =>
    let steps := [Step.parseUrl] ++
      (if schemeSelectsTls uri.scheme then [Step.tlsConfig] else [])
    if connectOk then
      if isValidHeaderValue (mkAuthHeader config.token) then
        (steps ++ [.connect, .parseToken, .wrapInterceptor],
         .ok ⟨⟨mkAuthHeader config.token⟩⟩)
      else
        (steps ++ [.connect, .parseToken], .error .configTokenError)
    else
      (steps ++ [.connect], .error .connectionError)

/-- Source `ChatIngestClient::new` (`src/client.rs:460`): the same construction
sequence as `SeabirdClient::new`, installing the ingest client's
interceptor. -/
def chatIngestClientNew (config : ClientConfig) (connectOk : Bool) :
    List Step × Except NewError ChatIngestClient :=
  match parseUri config.url with
  | none => ([.parseUrl], .error .configUrlError)
  | some uri =>
    let steps := [Step.parseUrl] ++
      (if schemeSelectsTls uri.scheme then [Step.tlsConfig] else [])
    if connectOk then
      if isValidHeaderValue (mkAuthHeader config.token) then
        (steps ++ [.connect, .parseToken, .wrapInterceptor],
         .ok ⟨⟨mkAuthHeader config.token⟩⟩)
      else
        (steps ++ [.connect, .parseToken], .error .configTokenError)
    else
      (steps ++ [.connect], .error .connectionError)

/-- The standard `std::time::SystemTime`, in its Unix representation: whole seconds from
the epoch (`tv_sec : i64`) and nanoseconds within the second. -/
structure SystemTime where
  tv_sec : Int
  tv_nsec : Nat

/-- The standard `std::time::Duration`: whole seconds (`u64`) and sub-second
nanoseconds. -/
structure Duration where
  secs : Nat
  subsec_nanos : Nat
  deriving Repr, DecidableEq

/-- Source `Duration::default`: the zero duration. -/
def Duration.default : Duration := ⟨0, 0⟩

/-- Source `SystemTime::duration_since(UNIX_EPOCH)`: the elapsed duration when the
time is at or after the epoch, an error (here `none`) otherwise. -/
def SystemTime.durationSinceEpoch (t : SystemTime) : Option Duration :=
  let total := t.tv_sec * 1000000000 + t.tv_nsec
  if 0 ≤ total then
    some ⟨total.toNat / 1000000000, total.toNat % 1000000000⟩
  else none

/-- Interpretation of a `Nat` cast with `as` to a `w`-bit signed integer:
reduce modulo `2 ^ w` and reinterpret as two's complement. -/
def wrapToInt (w : Nat) (n : Nat) : Int :=
  if n % 2 ^ w < 2 ^ (w - 1) then (n % 2 ^ w : Nat)
  else (n % 2 ^ w : Nat) - (2 ^ w : Nat)

/-- Source `Block::timestamp` (`src/block.rs:208`): takes the duration since the
epoch, falling back to the zero duration for pre-epoch times
(`unwrap_or_default`), and appends a `Timestamp` leaf with the duration's
seconds cast `as i64` and sub-second nanoseconds cast `as i32`. -/
def Block.timestamp (b : Block) (time : SystemTime) : Block :=
  let duration := time.durationSinceEpoch.getD Duration.default
  let ts : Timestamp := ⟨wrapToInt 64 duration.secs, wrapToInt 32 duration.subsec_nanos⟩
  ⟨b.children ++ [⟨"", some (.timestamp (some ts))⟩]⟩

/-- Whether a wire-call parameter pair carries exactly one of the two
payload fields: nonempty text with no block, or empty text with a block. -/
def exactlyOnePopulated (r : String × Option ProtoBlock) : Prop :=
  (r.1 ≠ "" ∧ r.2 = none) ∨ (r.1 = "" ∧ r.2 ≠ none)

/-- C2: converting a builder to a wire node returns the single child
directly when the builder holds exactly one child, and otherwise returns a
`Container` node whose inner sequence equals the builder's children in their
original order (an empty children list producing an empty `Container`). -/
theorem normalize_spec (b : Block) :
    (∀ c, b.children = [c] → b.toProto = c) ∧
    (b.children.length ≠ 1 →
      b.toProto = ⟨"", some (.container b.children)⟩) := by
  obtain ⟨cs⟩ := b
  constructor
  · intro c h
    subst h
    rfl
  · intro h
    rcases cs with _ | ⟨x, _ | ⟨y, rest⟩⟩
    · rfl
    · exact absurd rfl h
    · rfl

theorem normalize_spec_witness :
    Block.toProto ⟨[⟨"", some (.text "hi")⟩]⟩ = ⟨"", some (.text "hi")⟩ ∧
    Block.toProto ⟨[]⟩ = ⟨"", some (.container [])⟩ :=
  ⟨(normalize_spec ⟨[⟨"", some (.text "hi")⟩]⟩).1 _ rfl,
   (normalize_spec ⟨[]⟩).2 (by decide)⟩

/-- C4: converting a wire node to a builder yields a builder whose children
are exactly the node's inner sequence when the node is a `Container`
(unwrapped one level), and a single-element children sequence holding the
node itself for any non-`Container` node. -/
theorem denormalize_spec (p : ProtoBlock) :
    (∀ pl cs, p = ⟨pl, some (.container cs)⟩ → (Block.ofProto p).children = cs) ∧
    (isContainerNode p = false → (Block.ofProto p).children = [p]) := by
  constructor
  · intro pl cs h
    subst h
    rfl
  · intro h
    obtain ⟨pl, i⟩ := p
    cases i with
    | none => rfl
    | some inn => cases inn <;> first | rfl | exact Bool.noConfusion h

theorem denormalize_spec_witness :
    (Block.ofProto ⟨"p", some (.container [⟨"", some (.text "a")⟩])⟩).children
      = [⟨"", some (.text "a")⟩] ∧
    (Block.ofProto ⟨"", some (.text "a")⟩).children = [⟨"", some (.text "a")⟩] :=
  ⟨(denormalize_spec _).1 "p" _ rfl, (denormalize_spec _).2 rfl⟩

/-- C1 fails as stated: for a builder holding exactly one child that is a
`Container`, normalization returns the container and denormalization unwraps
it, so the round trip loses the single-container layer.  Here the builder
with the single child `Container []` round-trips to the empty child
sequence. -/
theorem roundtrip_single_container_cex :
    (Block.ofProto (Block.toProto ⟨[⟨"", some (.container [])⟩]⟩)).children = [] ∧
    ([] : List ProtoBlock) ≠ [⟨"", some (.container [])⟩] :=
  ⟨rfl, fun h => List.noConfusion h⟩

/-- C1 (amended): for every builder whose children are not exactly one
`Container` node, converting to a wire node and back yields a builder whose
child sequence equals the original child sequence. -/
theorem roundtrip_children_eq (b : Block)
    (h : ∀ p cs, b.children ≠ [ProtoBlock.mk p (some (.container cs))]) :
    (Block.ofProto b.toProto).children = b.children := by
  obtain ⟨cs⟩ := b
  rcases cs with _ | ⟨x, _ | ⟨y, rest⟩⟩
  · rfl
  · obtain ⟨pl, i⟩ := x
    cases i with
    | none => rfl
    | some inn => cases inn <;> first | rfl | exact absurd rfl (h pl _)
  · rfl

theorem roundtrip_children_eq_witness :
    (Block.ofProto (Block.toProto ⟨[⟨"", some (.text "hi")⟩]⟩)).children
      = [⟨"", some (.text "hi")⟩] :=
  roundtrip_children_eq ⟨[⟨"", some (.text "hi")⟩]⟩ (by
    intro p cs h
    injection h with h1 h2
    injection h1 with hp hi
    injection hi with hinner
    exact ProtoInner.noConfusion hinner)

/-- C7: `append` concatenates the other builder's children after this
builder's children and `prepend` concatenates them before, preserving
relative order inside both sequences; in particular a builder holding a
container's two children appended with another container's two children
normalizes to a `Container` with the four children in order. -/
theorem append_prepend_order (x y : Block) :
    (x.append y).children = x.children ++ y.children ∧
    (x.prepend y).children = y.children ++ x.children ∧
    ∀ a b c d : ProtoBlock,
      Block.toProto ((Block.ofProto ⟨"", some (.container [a, b])⟩).append
          (Block.ofProto ⟨"", some (.container [c, d])⟩))
        = ⟨"", some (.container [a, b, c, d])⟩ :=
  ⟨rfl, rfl, fun _ _ _ _ => rfl⟩

/-- C8 fails as stated: plain-text content holding the empty string
converts to empty text with an absent block, so on the wire neither field is
populated — contradicting "never both unpopulated". -/
theorem into_inner_empty_text_cex :
    (MessageContent.text "").into_inner = ("", none) ∧
    ¬ exactlyOnePopulated (MessageContent.text "").into_inner := by
  refine ⟨rfl, ?_⟩
  rintro (⟨h1, -⟩ | ⟨-, h2⟩)
  · exact h1 rfl
  · exact h2 rfl

/-- C8 (amended): `PlainText s` converts to `(text = s, node absent)` and
`StructuredBlock n` to `(text empty, node present)`; the two fields are
never both populated, and exactly one is populated except for `PlainText` of
the empty string, which leaves both unpopulated. -/
theorem into_inner_spec (s : String) (n : ProtoBlock) :
    (MessageContent.text s).into_inner = (s, none) ∧
    (MessageContent.blocks n).into_inner = ("", some n) ∧
    ¬((MessageContent.text s).into_inner.1 ≠ "" ∧
      (MessageContent.text s).into_inner.2 ≠ none) ∧
    ¬((MessageContent.blocks n).into_inner.1 ≠ "" ∧
      (MessageContent.blocks n).into_inner.2 ≠ none) ∧
    (s ≠ "" → exactlyOnePopulated (MessageContent.text s).into_inner) ∧
    exactlyOnePopulated (MessageContent.blocks n).into_inner := by
  refine ⟨rfl, rfl, ?_, ?_, ?_, ?_⟩
  · rintro ⟨-, h2⟩
    exact h2 rfl
  · rintro ⟨h1, -⟩
    exact h1 rfl
  · intro hs
    exact Or.inl ⟨hs, rfl⟩
  · exact Or.inr ⟨rfl, fun h => Option.noConfusion h⟩

theorem into_inner_spec_witness :
    exactlyOnePopulated (MessageContent.text "x").into_inner :=
  (into_inner_spec "x" ⟨"", none⟩).2.2.2.2.1 (by decide)

/-- C6: each of the four bot operations builds exactly one request whose
text and block fields come from the `MessageContent` conversion (plain text
gives the given string with no block, block content gives empty text with
the block) and whose tags equal the given mapping when present and the empty
mapping when absent; in particular sending the plain text "hi" with no tags
issues text "hi", no block and empty tags. -/
theorem request_construction_spec (id s : String) (n : ProtoBlock)
    (content : MessageContent) (tags : Option Tags) :
    sendMessageRequest id content tags
      = ⟨id, content.into_inner.1, content.into_inner.2, tags.getD []⟩ ∧
    sendPrivateMessageRequest id content tags
      = ⟨id, content.into_inner.1, content.into_inner.2, tags.getD []⟩ ∧
    performActionRequest id content tags
      = ⟨id, content.into_inner.1, content.into_inner.2, tags.getD []⟩ ∧
    performPrivateActionRequest id content tags
      = ⟨id, content.into_inner.1, content.into_inner.2, tags.getD []⟩ ∧
    sendMessageRequest id (.text s) tags = ⟨id, s, none, tags.getD []⟩ ∧
    sendMessageRequest id (.blocks n) tags = ⟨id, "", some n, tags.getD []⟩ ∧
    sendMessageRequest id (.text "hi") none = ⟨id, "hi", none, []⟩ :=
  ⟨rfl, rfl, rfl, rfl, rfl, rfl, rfl⟩

/-- C9: the authentication interceptor always succeeds and sets the
request's `authorization` metadata entry to the formatted `Bearer <token>`
value, overwriting any value the request previously carried (the result is
stated for an arbitrary incoming request, including one that already holds
an `authorization` entry). -/
theorem auth_interceptor_spec (token : String) (req : GrpcRequest) :
    AuthHeaderInterceptor.call ⟨mkAuthHeader token⟩ req
      = .ok ⟨fun k =>
          if k = "authorization" then some ("Bearer " ++ token)
          else req.metadata k⟩ :=
  rfl

/-- The TLS-configuration step appears in `SeabirdClient::new`'s trace
exactly when the parsed scheme selects TLS. -/
theorem seabird_tls_step (cfg : ClientConfig) (ck : Bool) (u : Uri)
    (hu : parseUri cfg.url = some u) :
    (seabirdClientNew cfg ck).1.contains Step.tlsConfig
      = schemeSelectsTls u.scheme := by
  unfold seabirdClientNew
  rw [hu]
  cases hts : schemeSelectsTls u.scheme <;> cases ck <;>
    cases hv : isValidHeaderValue (mkAuthHeader cfg.token) <;>
      simp [hts, hv] <;> decide

/-- The TLS-configuration step appears in `ChatIngestClient::new`'s trace
exactly when the parsed scheme selects TLS. -/
theorem chat_ingest_tls_step (cfg : ClientConfig) (ck : Bool) (u : Uri)
    (hu : parseUri cfg.url = some u) :
    (chatIngestClientNew cfg ck).1.contains Step.tlsConfig
      = schemeSelectsTls u.scheme := by
  unfold chatIngestClientNew
  rw [hu]
  cases hts : schemeSelectsTls u.scheme <;> cases ck <;>
    cases hv : isValidHeaderValue (mkAuthHeader cfg.token) <;>
      simp [hts, hv] <;> decide

/-- C5: transport security is chosen once from the parsed scheme — an
absent scheme or `https` applies the TLS configuration, while any other
scheme (including `http` and `ftp`) takes the default unencrypted path; in
particular `ftp://x` parses successfully and neither client's construction
performs the TLS-configuration step for it, for any token and any connect
outcome. -/
theorem scheme_dispatch_spec (token : String) (connectOk : Bool) :
    schemeSelectsTls none = true ∧
    schemeSelectsTls (some "https") = true ∧
    schemeSelectsTls (some "http") = false ∧
    schemeSelectsTls (some "ftp") = false ∧
    parseUri "ftp://x" = some ⟨some "ftp", "x"⟩ ∧
    (seabirdClientNew ⟨"ftp://x", token⟩ connectOk).1.contains Step.tlsConfig
      = false ∧
    (chatIngestClientNew ⟨"ftp://x", token⟩ connectOk).1.contains Step.tlsConfig
      = false := by
  refine ⟨rfl, rfl, rfl, rfl, rfl, ?_, ?_⟩
  · rw [seabird_tls_step ⟨"ftp://x", token⟩ connectOk ⟨some "ftp", "x"⟩ rfl]
    rfl
  · rw [chat_ingest_tls_step ⟨"ftp://x", token⟩ connectOk ⟨some "ftp", "x"⟩ rfl]
    rfl

/-- C3 fails as stated: constructing a client with a token containing a
newline does surface an error at token validation, but only after the
connect step — the recorded trace of both constructors places `connect`
before `parseToken`, so a network connection is attempted prior to the
failure. -/
theorem token_error_after_connect_cex :
    (seabirdClientNew ⟨"https://seabird.example.com", "bad\ntoken"⟩ true).2
      = .error .configTokenError ∧
    (seabirdClientNew ⟨"https://seabird.example.com", "bad\ntoken"⟩ true).1
      = [.parseUrl, .tlsConfig, .connect, .parseToken] ∧
    (chatIngestClientNew ⟨"https://seabird.example.com", "bad\ntoken"⟩ true).2
      = .error .configTokenError ∧
    (chatIngestClientNew ⟨"https://seabird.example.com", "bad\ntoken"⟩ true).1
      = [.parseUrl, .tlsConfig, .connect, .parseToken] :=
  ⟨rfl, rfl, rfl, rfl⟩

/-- C3 (amended): for every configuration whose formatted token is an
illegal header value, client construction fails with the token
configuration error only after the connection step — when the URL parses
and the connection succeeds, the trace of both constructors is URL parse,
optional TLS configuration, connect, then the failing token parse. -/
theorem token_validation_after_connect (cfg : ClientConfig) (u : Uri)
    (hu : parseUri cfg.url = some u)
    (ht : isValidHeaderValue (mkAuthHeader cfg.token) = false) :
    (seabirdClientNew cfg true).2 = .error .configTokenError ∧
    (seabirdClientNew cfg true).1 =
      [Step.parseUrl]
        ++ (if schemeSelectsTls u.scheme then [Step.tlsConfig] else [])
        ++ [Step.connect, Step.parseToken] ∧
    (chatIngestClientNew cfg true).2 = .error .configTokenError ∧
    (chatIngestClientNew cfg true).1 =
      [Step.parseUrl]
        ++ (if schemeSelectsTls u.scheme then [Step.tlsConfig] else [])
        ++ [Step.connect, Step.parseToken] := by
  unfold seabirdClientNew chatIngestClientNew
  rw [hu]
  simp [ht]

theorem token_validation_after_connect_witness :
    (seabirdClientNew ⟨"https://x", "a\nb"⟩ true).2 = .error .configTokenError ∧
    (seabirdClientNew ⟨"https://x", "a\nb"⟩ true).1 =
      [Step.parseUrl]
        ++ (if schemeSelectsTls (some "https") then [Step.tlsConfig] else [])
        ++ [Step.connect, Step.parseToken] ∧
    (chatIngestClientNew ⟨"https://x", "a\nb"⟩ true).2 = .error .configTokenError ∧
    (chatIngestClientNew ⟨"https://x", "a\nb"⟩ true).1 =
      [Step.parseUrl]
        ++ (if schemeSelectsTls (some "https") then [Step.tlsConfig] else [])
        ++ [Step.connect, Step.parseToken] :=
  token_validation_after_connect ⟨"https://x", "a\nb"⟩ ⟨some "https", "x"⟩ rfl rfl

/-- C10: `Block::timestamp` is total and never fails — for every time at or
after the UNIX epoch (within the `i64` seconds range of `SystemTime`) it
appends a `Timestamp` leaf carrying that instant's whole seconds and
sub-second nanoseconds, and for every time strictly before the epoch it
silently appends a `Timestamp` leaf holding the epoch (seconds 0, nanos 0)
rather than erroring. -/
theorem timestamp_spec (b : Block) (t : SystemTime)
    (hn : t.tv_nsec < 1000000000) (hs : t.tv_sec < 2 ^ 63) :
    (0 ≤ t.tv_sec → (b.timestamp t).children
        = b.children
          ++ [⟨"", some (.timestamp (some ⟨t.tv_sec, (t.tv_nsec : Int)⟩))⟩]) ∧
    (t.tv_sec < 0 → (b.timestamp t).children
        = b.children ++ [⟨"", some (.timestamp (some ⟨0, 0⟩))⟩]) := by
  have es63 : (2:Int) ^ 63 = 9223372036854775808 := by norm_num
  rw [es63] at hs
  constructor
  · intro hpos
    have htotal : (0:Int) ≤ t.tv_sec * 1000000000 + t.tv_nsec := by
      have : (0:Int) ≤ t.tv_nsec := Int.ofNat_nonneg _
      nlinarith
    have hdiv : (t.tv_sec * 1000000000 + (t.tv_nsec : Int)).toNat / 1000000000
        = t.tv_sec.toNat := by omega
    have hmod : (t.tv_sec * 1000000000 + (t.tv_nsec : Int)).toNat % 1000000000
        = t.tv_nsec := by omega
    have hw64 : wrapToInt 64 t.tv_sec.toNat = t.tv_sec := by
      unfold wrapToInt
      have e64 : (2:Nat) ^ 64 = 18446744073709551616 := by norm_num
      have e63n : (2:Nat) ^ (64 - 1) = 9223372036854775808 := by norm_num
      rw [e64, e63n]
      have hlt : t.tv_sec.toNat < 18446744073709551616 := by omega
      rw [Nat.mod_eq_of_lt hlt, if_pos (by omega)]
      omega
    have hw32 : wrapToInt 32 t.tv_nsec = (t.tv_nsec : Int) := by
      unfold wrapToInt
      have e32 : (2:Nat) ^ 32 = 4294967296 := by norm_num
      have e31 : (2:Nat) ^ (32 - 1) = 2147483648 := by norm_num
      rw [e32, e31]
      rw [Nat.mod_eq_of_lt (by omega), if_pos (by omega)]
    unfold Block.timestamp SystemTime.durationSinceEpoch
    rw [if_pos htotal]
    simp only [Option.getD_some]
    rw [hdiv, hmod, hw64, hw32]
  · intro hneg
    have htotal : ¬ (0:Int) ≤ t.tv_sec * 1000000000 + t.tv_nsec := by
      intro hc
      omega
    unfold Block.timestamp SystemTime.durationSinceEpoch
    rw [if_neg htotal]
    simp only [Option.getD_none]
    norm_num [Duration.default, wrapToInt]

theorem timestamp_spec_witness :
    (Block.timestamp ⟨[]⟩ ⟨5, 300⟩).children
      = [⟨"", some (.timestamp (some ⟨5, 300⟩))⟩] ∧
    (Block.timestamp ⟨[]⟩ ⟨-1, 0⟩).children
      = [⟨"", some (.timestamp (some ⟨0, 0⟩))⟩] :=
  ⟨(timestamp_spec ⟨[]⟩ ⟨5, 300⟩ (by norm_num) (by norm_num)).1 (by norm_num),
   (timestamp_spec ⟨[]⟩ ⟨-1, 0⟩ (by norm_num) (by norm_num)).2 (by norm_num)⟩

end Seabird
